import Mathlib

/-!
Verification development for the FCM notification-dispatch server
(`src/index.js` and `src/unnamed/part_000` — the "COMPLETE FIXED VERSION",
which is the variant implementing the full three-strategy router described
in the spec; `src/index.js` is the same router without the direct-target
step).

Modelling conventions:
* JavaScript strings that may be absent or empty are modelled as `String`,
  with `""` playing the role of every falsy value (for string-typed request
  fields, `undefined`, `null` and `""` are all falsy and are treated
  identically by the code's `!x` / `x || y` tests).
* The `Map` `userTokens` is an association list with at most one entry per
  key (`mapSet` overwrites in place, like `Map.set`); the `Set` `allTokens`
  is a duplicate-free list (`setAdd` is a no-op on a present element, like
  `Set.add`).
* The push transport (`admin.messaging()`) and the bcrypt comparison are
  external collaborators, modelled as explicit function parameters; the
  transport calls actually issued by a dispatch are returned as a log so
  that "no transport call is made" is expressible.
-/

namespace FcmServer

/-- One value of the `userTokens` map: `{ token, role, timestamp }` as stored
by `POST /register` (src/unnamed/part_000 lines 102-106). -/
structure Rec where
  token : String
  role : String
  timestamp : Nat
deriving Repr, DecidableEq

/-- The in-memory store: `userTokens : Map<uid, Rec>` plus the broadcast set
`allTokens : Set<token>` (src/unnamed/part_000 lines 69-72). -/
structure Registry where
  userTokens : List (String × Rec)
  allTokens : List String
deriving Repr, DecidableEq

def Registry.empty : Registry := ⟨[], []⟩

/-- `Map.set`: overwrite the entry in place when the key is present,
append otherwise. -/
def mapSet (m : List (String × Rec)) (k : String) (v : Rec) : List (String × Rec) :=
  match m with
  | [] => [(k, v)]
  | (k1, v1) :: rest => if k1 = k then (k, v) :: rest else (k1, v1) :: mapSet rest k v

/-- `Map.get` / `Map.has`: first entry with the given key. -/
def mapGet (m : List (String × Rec)) (k : String) : Option Rec :=
  match m with
  | [] => none
  | (k1, v1) :: rest => if k1 = k then some v1 else mapGet rest k

/-- `Set.add`: idempotent insertion. -/
def setAdd (s : List String) (t : String) : List String :=
  if t ∈ s then s else s ++ [t]

/-- Number of entries of the map carrying a given key. -/
def countKey (m : List (String × Rec)) (k : String) : Nat :=
  m.countP (fun p => p.1 == k)

/-- Outcome of `POST /register`. -/
inductive RegisterResult
  | missingToken
  | missingUid
  | ok (uid token : String)
deriving Repr, DecidableEq

/-- `POST /register` (src/unnamed/part_000 lines 89-117): reject a falsy
`token` or `uid` with a 400 and no mutation; otherwise upsert
`userTokens[uid] := { token, role: role || 'user', timestamp: now }` and add
`token` to `allTokens`. -/
def registerPost (st : Registry) (uid role token : String) (now : Nat) :
    RegisterResult × Registry :=
  if token = "" then (.missingToken, st)
  else if uid = "" then (.missingUid, st)
  else
    (.ok uid token,
      { userTokens := mapSet st.userTokens uid ⟨token, if role = "" then "user" else role, now⟩
        allTokens := setAdd st.allTokens token })

/-- A registration request, for iterating `POST /register`. -/
structure RegEvent where
  uid : String
  role : String
  token : String
  now : Nat
deriving Repr, DecidableEq

/-- A registration that passes the two validation checks and so mutates the
store. -/
def RegEvent.accepted (e : RegEvent) : Prop := e.token ≠ "" ∧ e.uid ≠ ""

instance (e : RegEvent) : Decidable e.accepted := by
  unfold RegEvent.accepted; infer_instance

/-- Apply a sequence of registration requests to the store. -/
def applyRegs (st : Registry) (evs : List RegEvent) : Registry :=
  match evs with
  | [] => st
  | e :: rest => applyRegs (registerPost st e.uid e.role e.token e.now).2 rest

/-- A stored password field: the realtime-database value `userRecord.password`
may be a string or any other JSON value. -/
inductive Stored
  | str (s : String)
  | nonString
deriving Repr, DecidableEq

/-- The test `storedHashOrPlain.startsWith('$2')`, written out over the
character list: the first two characters are `$` and `2`. -/
def isBcryptHash (s : String) : Bool :=
  match s.data with
  | c1 :: c2 :: _ => c1 == '$' && c2 == '2'
  | _ => false

/-- `toLowerCase()`, written out over the character list. -/
def lowerStr (s : String) : String := ⟨s.data.map Char.toLower⟩

/-- `verifyPassword` (src/unnamed/part_000 lines 55-63): when the stored
value is a string starting with `$2`, defer to `bcrypt.compare` (an external
collaborator, passed as `bcryptCompare`); otherwise strict equality
(`===`) against the stored value, which for a non-string stored value is
always false against a string candidate. -/
def verifyPassword (bcryptCompare : String → String → Bool) (candidate : String)
    (stored : Stored) : Bool :=
  match stored with
  | .str s => if isBcryptHash s then bcryptCompare candidate s else candidate == s
  | .nonString => false

/-- The `POST /send-call` request body fields that the router inspects
(src/unnamed/part_000 lines 154-169); `""` stands for an absent field and
`useTopic` for the truthiness of the field of the same name. -/
structure Intent where
  patientName : String
  channelId : String
  roomId : String
  channel : String
  doctorUid : String
  targetRole : String
  useTopic : Bool
deriving Repr, DecidableEq

/-- The validation check of src/unnamed/part_000 line 171:
`!patientName || (!channelId && !channel && !roomId)`. -/
def Intent.invalid (i : Intent) : Bool :=
  i.patientName == "" || (i.channelId == "" && i.channel == "" && i.roomId == "")

/-- `singleDoctorToken` (src/unnamed/part_000 lines 181-189): set only when
`finalDoctorUid` is truthy and `userTokens.has(finalDoctorUid)`. -/
def singleDoctorToken (st : Registry) (i : Intent) : Option String :=
  if i.doctorUid = "" then none
  else (mapGet st.userTokens i.doctorUid).map Rec.token

/-- The role filter of src/unnamed/part_000 lines 208-212:
`Array.from(userTokens.values()).filter(u => (u.role || '').toLowerCase()
=== targetRole.toLowerCase())`. -/
def listByRole (st : Registry) (role : String) : List Rec :=
  (st.userTokens.map Prod.snd).filter (fun u => lowerStr u.role == lowerStr role)

/-- The token list resolved on the `tokens` path (src/unnamed/part_000 lines
207-221): role-filtered when `targetRole` is truthy, else the whole
broadcast set. -/
def resolvedTokens (st : Registry) (i : Intent) : List String :=
  if i.targetRole = "" then st.allTokens else (listByRole st i.targetRole).map Rec.token

/-- The routing decision of one dispatch. -/
inductive Route
  | invalid
  | single (doctorUid dest : String)
  | topic (name : String)
  | tokens (tokenList : List String)
  | noRecipients (err : String)
deriving Repr, DecidableEq

/-- Steps 2-4 of the router (src/unnamed/part_000 lines 199-231), reached
when no truthy `singleDoctorToken` was found: `useTopic` wins, else the
`tokens` path with its empty-list 404. -/
def routeFallback (st : Registry) (i : Intent) : Route :=
  if i.useTopic then .topic "doctors"
  else if resolvedTokens st i = [] then
    .noRecipients (if i.targetRole = "" then "No tokens registered"
      else "No " ++ i.targetRole ++ " tokens registered")
  else .tokens (resolvedTokens st i)

/-- The full routing decision of `POST /send-call` (src/unnamed/part_000
lines 171-231): validation, then `if (singleDoctorToken)` (truthiness of the
option, so a `""` token also falls through), then the fallback chain. -/
def route (st : Registry) (i : Intent) : Route :=
  if i.invalid then .invalid
  else
    match singleDoctorToken st i with
    | some t => if t = "" then routeFallback st i else .single i.doctorUid t
    | none => routeFallback st i

/-- The push transport collaborator: `admin.messaging().send` on a single
token, on a topic, and `sendEachForMulticast`, whose result is the
per-destination success vector (aligned with the input token list). -/
structure Transport where
  send : String → String
  sendTopic : String → String
  multicast : List String → List Bool

/-- One outbound call to the push transport. -/
inductive TCall
  | send (dest : String)
  | sendTopic (topic : String)
  | multicast (dests : List String)
deriving Repr, DecidableEq

/-- The HTTP response of `POST /send-call`. -/
inductive Response
  | badRequest (err : String)
  | notFound (err : String)
  | okSingle (doctorUid messageId : String)
  | okTopic (messageId topic : String)
  | okTokens (successCount failureCount tokensSent : Nat)
deriving Repr, DecidableEq

/-- Whether a response carries an HTTP error status (400 or 404; the 500
handler is the catch-all for transport exceptions, outside this model). -/
def Response.isError : Response → Bool
  | .badRequest _ => true
  | .notFound _ => true
  | _ => false

/-- `POST /send-call` (src/unnamed/part_000 lines 150-352): route, then
execute the chosen strategy against the transport. Returns the response,
the log of transport calls made, and the (unchanged — the handler never
writes) registry. On the `tokens` path the response reports
`successCount`/`failureCount` as the tallies of the per-destination
outcome vector. -/
def sendCall (tp : Transport) (st : Registry) (i : Intent) :
    Response × List TCall × Registry :=
  match route st i with
  | .invalid => (.badRequest "Missing patientName or channel/channelId/roomId", [], st)
  | .noRecipients err => (.notFound err, [], st)
  | .single duid dest => (.okSingle duid (tp.send dest), [.send dest], st)
  | .topic name => (.okTopic (tp.sendTopic name) name, [.sendTopic name], st)
  | .tokens lst =>
      (.okTokens ((tp.multicast lst).count true) ((tp.multicast lst).count false) lst.length,
        [.multicast lst], st)

/-- Modelled from the spec: the rate limiter is `RateLimiterMemory` from the
external `rate-limiter-flexible` package, configured in the source with
`points: 5, duration: 60 * 5` seconds. Per the spec it admits at most
`points` consumes per key per fixed window of `duration` seconds, the window
starting at the first consume after the previous window expired; a consume
past the quota is rejected and does not change the state. State: per-key
(points consumed, window expiry in milliseconds). -/
structure RLState where
  entries : List (String × Nat × Nat)
deriving Repr, DecidableEq

def rlPoints : Nat := 5

def rlDurationMs : Nat := 60 * 5 * 1000

def rlLookup (es : List (String × Nat × Nat)) (k : String) : Option (Nat × Nat) :=
  match es with
  | [] => none
  | (k1, ce) :: rest => if k1 = k then some ce else rlLookup rest k

def rlSet (es : List (String × Nat × Nat)) (k : String) (v : Nat × Nat) :
    List (String × Nat × Nat) :=
  match es with
  | [] => [(k, v)]
  | (k1, ce) :: rest => if k1 = k then (k, v) :: rest else (k1, ce) :: rlSet rest k v

/-- Modelled from the spec: `rateLimiter.consume(key)` at time `nowMs`. -/
def rlConsume (st : RLState) (key : String) (nowMs : Nat) : Bool × RLState :=
  match rlLookup st.entries key with
  | none => (true, ⟨rlSet st.entries key (1, nowMs + rlDurationMs)⟩)
  | some (c, exp) =>
      if exp ≤ nowMs then (true, ⟨rlSet st.entries key (1, nowMs + rlDurationMs)⟩)
      else if c < rlPoints then (true, ⟨rlSet st.entries key (c + 1, exp)⟩)
      else (false, st)

/-- A legacy user record found under `oldUsers`: its database key and its
stored `password` field. -/
structure UserRecord where
  key : String
  password : Stored
deriving Repr, DecidableEq

/-- The HTTP outcome of `POST /login`. -/
inductive LoginResult
  | rateLimited
  | missingFields
  | invalidCredentials
  | token (uid : String)
deriving Repr, DecidableEq

/-- `POST /login` (src/unnamed/part_000 lines 366-405): consume the rate
limiter for `req.ip` first (429 on rejection), then validate fields, then
query the database (`db` is the `oldUsers`-by-username lookup collaborator)
and compare passwords. Returns the result, the limiter state, and the list
of usernames looked up in the credential store (empty exactly when no
credential lookup happened). -/
def login (bc : String → String → Bool) (db : String → Option UserRecord)
    (rl : RLState) (ip : String) (nowMs : Nat) (username password : String) :
    LoginResult × RLState × List String :=
  match rlConsume rl ip nowMs with
  | (false, rl1) => (.rateLimited, rl1, [])
  | (true, rl1) =>
      if username = "" ∨ password = "" then (.missingFields, rl1, [])
      else
        match db username with
        | none => (.invalidCredentials, rl1, [username])
        | some u =>
            if verifyPassword bc password u.password then
              (.token ("legacy_" ++ u.key), rl1, [username])
            else (.invalidCredentials, rl1, [username])

/-- The credential-only decision: what `POST /login` answers once the rate
limiter has admitted the request. -/
def credOutcome (bc : String → String → Bool) (db : String → Option UserRecord)
    (username password : String) : LoginResult :=
  if username = "" ∨ password = "" then .missingFields
  else
    match db username with
    | none => .invalidCredentials
    | some u =>
        if verifyPassword bc password u.password then .token ("legacy_" ++ u.key)
        else .invalidCredentials

/-- Iterate `POST /login` over a list of (time, username, password)
attempts from one client, threading the limiter state. -/
def loginFold (bc : String → String → Bool) (db : String → Option UserRecord)
    (ip : String) (rl : RLState) : List (Nat × String × String) → RLState
  | [] => rl
  | (t, u, p) :: rest => loginFold bc db ip (login bc db rl ip t u p).2.1 rest

/-- Every record in the map carries a non-empty token (true of every
registry built by `POST /register`, which rejects empty tokens). -/
def wfTokens (st : Registry) : Prop := ∀ p ∈ st.userTokens, p.2.token ≠ ""

instance (st : Registry) : Decidable (wfTokens st) := by
  unfold wfTokens; infer_instance

/-! Concrete fixtures used to instantiate the theorems below. -/

/-- A transport whose multicast reports success on every destination. -/
def exTransport : Transport :=
  ⟨fun _ => "mid-1", fun _ => "mid-2", fun l => l.map (fun _ => true)⟩

/-- A transport whose multicast reports failure on every destination. -/
def exFailTransport : Transport :=
  ⟨fun _ => "mid-1", fun _ => "mid-2", fun l => l.map (fun _ => false)⟩

/-- A registry with one registered doctor, `d1 ↦ tok-A`. -/
def exReg : Registry := (registerPost Registry.empty "d1" "doctor" "tok-A" 0).2

/-- The registry after re-registering `u1` with a new token: `allTokens`
retains the stale `tokA`. -/
def staleReg : Registry :=
  (registerPost (registerPost Registry.empty "u1" "doctor" "tokA" 0).2 "u1" "doctor" "tokB" 1).2

/-- A direct-target intent that also carries `targetRole` and `useTopic`
hints. -/
def iDirect : Intent := ⟨"Jane", "room7", "", "", "d1", "nurse", true⟩

/-- A role-filtered intent with no direct target and no topic request. -/
def iRole : Intent := ⟨"Jane", "", "room7", "", "", "doctor", false⟩

/-- An intent with no `patientName`. -/
def iInvalid : Intent := ⟨"", "room7", "", "", "", "", false⟩

/-- A plain full-broadcast intent. -/
def iBroadcast : Intent := ⟨"Jane", "room7", "", "", "", "", false⟩

/-- A topic-requesting intent with no direct target. -/
def iTopic : Intent := ⟨"Jane", "room7", "", "", "", "", true⟩

/-- A bcrypt stub for instantiations. -/
def bcW : String → String → Bool := fun _ _ => false

/-- A one-user credential store for instantiations. -/
def dbW : String → Option UserRecord :=
  fun u => if u = "alice" then some ⟨"k9", Stored.str "pw"⟩ else none

/-- Four further login attempts within the first attempt's window. -/
def restW : List (Nat × String × String) :=
  [(1, "a", "b"), (2, "a", "b"), (3, "a", "b"), (4, "a", "b")]

end FcmServer

namespace FcmServer

/-! Helper lemmas about the store primitives. -/

theorem mapGet_mapSet_self (m : List (String × Rec)) (k : String) (v : Rec) :
    mapGet (mapSet m k v) k = some v := by
  induction m with
  | nil => simp [mapSet, mapGet]
  | cons q rest ih =>
      obtain ⟨k1, v1⟩ := q
      by_cases h : k1 = k
      · simp [mapSet, mapGet, h]
      · simp [mapSet, mapGet, h, ih]

theorem mapGet_mem (m : List (String × Rec)) (k : String) (v : Rec)
    (h : mapGet m k = some v) : (k, v) ∈ m := by
  induction m with
  | nil => simp [mapGet] at h
  | cons q rest ih =>
      obtain ⟨k1, v1⟩ := q
      by_cases hk : k1 = k
      · simp [mapGet, hk] at h
        simp [hk, h]
      · simp [mapGet, hk] at h
        exact List.mem_cons_of_mem _ (ih h)

theorem countKey_nil (k : String) : countKey [] k = 0 := rfl

theorem countKey_cons (k1 : String) (v1 : Rec) (rest : List (String × Rec)) (k : String) :
    countKey ((k1, v1) :: rest) k = countKey rest k + (if k1 = k then 1 else 0) := by
  by_cases h : k1 = k <;> simp [countKey, List.countP_cons, h]

theorem countKey_mapSet_self (m : List (String × Rec)) (k : String) (v : Rec)
    (h : countKey m k ≤ 1) : countKey (mapSet m k v) k = 1 := by
  induction m with
  | nil => simp [mapSet, countKey_cons, countKey_nil]
  | cons q rest ih =>
      obtain ⟨k1, v1⟩ := q
      rw [countKey_cons] at h
      by_cases hk : k1 = k
      · rw [if_pos hk] at h
        have h0 : countKey rest k = 0 := by omega
        simp [mapSet, hk, countKey_cons, h0]
      · rw [if_neg hk] at h
        simp only [mapSet, if_neg hk, countKey_cons]
        rw [ih (by omega)]

theorem countKey_mapSet_ne (m : List (String × Rec)) (k j : String) (v : Rec)
    (h : j ≠ k) : countKey (mapSet m k v) j = countKey m j := by
  have hkj : ¬ k = j := fun hh => h hh.symm
  induction m with
  | nil => simp [mapSet, countKey_cons, countKey_nil, hkj]
  | cons q rest ih =>
      obtain ⟨k1, v1⟩ := q
      by_cases hk : k1 = k
      · subst hk
        simp [mapSet, countKey_cons, hkj]
      · simp only [mapSet, if_neg hk, countKey_cons, ih]

theorem countKey_mapSet_le (m : List (String × Rec)) (k j : String) (v : Rec)
    (hj : countKey m j ≤ 1) (hk : countKey m k ≤ 1) :
    countKey (mapSet m k v) j ≤ 1 := by
  by_cases h : j = k
  · subst h
    exact le_of_eq (countKey_mapSet_self m j v hj)
  · rw [countKey_mapSet_ne m k j v h]
    exact hj

theorem mem_setAdd (s : List String) (x t : String) :
    t ∈ setAdd s x ↔ t ∈ s ∨ t = x := by
  unfold setAdd
  split_ifs with h
  · constructor
    · exact fun ht => Or.inl ht
    · rintro (ht | rfl)
      · exact ht
      · exact h
  · simp

theorem setAdd_nodup (s : List String) (x : String) (h : s.Nodup) :
    (setAdd s x).Nodup := by
  unfold setAdd
  split_ifs with hx
  · exact h
  · simp [List.nodup_append, h, hx]

theorem setAdd_length (s : List String) (x : String) :
    (setAdd s x).length ≤ s.length + 1 := by
  unfold setAdd
  split_ifs with hx
  · omega
  · simp

/-! Helper lemmas about the router and the login path. -/

theorem route_eq_fallback {st : Registry} {i : Intent}
    (hv : i.invalid = false) (hs : (singleDoctorToken st i).getD "" = "") :
    route st i = routeFallback st i := by
  unfold route
  rw [hv]
  cases h : singleDoctorToken st i with
  | none => simp
  | some t =>
      have ht : t = "" := by simpa [h] using hs
      simp [ht]

theorem invalid_iff (i : Intent) :
    i.invalid = true ↔
      i.patientName = "" ∨ (i.channelId = "" ∧ i.channel = "" ∧ i.roomId = "") := by
  simp only [Intent.invalid, Bool.or_eq_true, Bool.and_eq_true, beq_iff_eq]
  tauto

theorem rlLookup_rlSet_self (es : List (String × Nat × Nat)) (k : String) (v : Nat × Nat) :
    rlLookup (rlSet es k v) k = some v := by
  induction es with
  | nil => simp [rlSet, rlLookup]
  | cons q rest ih =>
      obtain ⟨k1, ce⟩ := q
      by_cases h : k1 = k
      · simp [rlSet, rlLookup, h]
      · simp [rlSet, rlLookup, h, ih]

theorem login_rlState (bc : String → String → Bool) (db : String → Option UserRecord)
    (rl : RLState) (ip : String) (nowMs : Nat) (username password : String) :
    (login bc db rl ip nowMs username password).2.1 = (rlConsume rl ip nowMs).2 := by
  unfold login
  rcases h : rlConsume rl ip nowMs with ⟨ok, rl1⟩
  cases ok
  · simp
  · by_cases hup : username = "" ∨ password = ""
    · simp [hup]
    · cases hdb : db username with
      | none => simp [hup, hdb]
      | some u =>
          by_cases hvp : verifyPassword bc password u.password = true <;>
            simp [hup, hdb, hvp]

theorem login_denied (bc : String → String → Bool) (db : String → Option UserRecord)
    (rl : RLState) (ip : String) (nowMs : Nat) (username password : String)
    (h : rlConsume rl ip nowMs = (false, rl)) :
    login bc db rl ip nowMs username password = (.rateLimited, rl, []) := by
  unfold login
  rw [h]

theorem login_admitted (bc : String → String → Bool) (db : String → Option UserRecord)
    (rl : RLState) (ip : String) (nowMs : Nat) (username password : String)
    (h : (rlConsume rl ip nowMs).1 = true) :
    (login bc db rl ip nowMs username password).1 = credOutcome bc db username password := by
  unfold login credOutcome
  rcases hc : rlConsume rl ip nowMs with ⟨ok, rl1⟩
  rw [hc] at h
  cases ok
  · simp at h
  · by_cases hup : username = "" ∨ password = ""
    · simp [hup]
    · cases hdb : db username with
      | none => simp [hup, hdb]
      | some u =>
          by_cases hvp : verifyPassword bc password u.password = true <;>
            simp [hup, hdb, hvp]

theorem loginFold_lookup (bc : String → String → Bool) (db : String → Option UserRecord)
    (ip : String) (atts : List (Nat × String × String)) :
    ∀ (rl : RLState) (c exp : Nat),
      rlLookup rl.entries ip = some (c, exp) →
      c + atts.length ≤ rlPoints →
      (∀ a ∈ atts, a.1 < exp) →
      rlLookup (loginFold bc db ip rl atts).entries ip = some (c + atts.length, exp) := by
  induction atts with
  | nil =>
      intro rl c exp h hle hlt
      simpa [loginFold] using h
  | cons a rest ih =>
      intro rl c exp h hle hlt
      obtain ⟨t, u, p⟩ := a
      have ht : t < exp := hlt (t, u, p) (List.mem_cons_self _ _)
      have hclt : c < rlPoints := by
        simp only [List.length_cons] at hle
        omega
      have hcons : rlConsume rl ip t = (true, ⟨rlSet rl.entries ip (c + 1, exp)⟩) := by
        simp [rlConsume, h, Nat.not_le.mpr ht, hclt]
      have hstate : (login bc db rl ip t u p).2.1 = ⟨rlSet rl.entries ip (c + 1, exp)⟩ := by
        rw [login_rlState, hcons]
      simp only [loginFold]
      rw [hstate]
      have hrec := ih ⟨rlSet rl.entries ip (c + 1, exp)⟩ (c + 1) exp
        (rlLookup_rlSet_self _ _ _)
        (by simp only [List.length_cons] at hle; omega)
        (fun b hb => hlt b (List.mem_cons_of_mem _ hb))
      have harith : c + (rest.length + 1) = (c + 1) + rest.length := by omega
      rw [List.length_cons, harith]
      exact hrec

theorem registerPost_snd (st : Registry) (uid role token : String) (now : Nat) :
    (registerPost st uid role token now).2 =
      if token = "" ∨ uid = "" then st
      else
        { userTokens := mapSet st.userTokens uid ⟨token, if role = "" then "user" else role, now⟩
          allTokens := setAdd st.allTokens token } := by
  by_cases h1 : token = "" <;> by_cases h2 : uid = "" <;> simp [registerPost, h1, h2]

theorem applyRegs_allTokens_nodup (evs : List RegEvent) :
    ∀ st : Registry, st.allTokens.Nodup → (applyRegs st evs).allTokens.Nodup := by
  induction evs with
  | nil => intro st h; exact h
  | cons e rest ih =>
      intro st h
      simp only [applyRegs]
      refine ih _ ?_
      by_cases hc : e.token = "" ∨ e.uid = ""
      · rw [registerPost_snd, if_pos hc]
        exact h
      · rw [registerPost_snd, if_neg hc]
        exact setAdd_nodup _ _ h

theorem applyRegs_allTokens_length (evs : List RegEvent) :
    ∀ st : Registry,
      (applyRegs st evs).allTokens.length ≤ st.allTokens.length + evs.length := by
  induction evs with
  | nil => intro st; simp [applyRegs]
  | cons e rest ih =>
      intro st
      simp only [applyRegs, List.length_cons]
      have hstep :
          ((registerPost st e.uid e.role e.token e.now).2).allTokens.length ≤
            st.allTokens.length + 1 := by
        by_cases hc : e.token = "" ∨ e.uid = ""
        · rw [registerPost_snd, if_pos hc]
          omega
        · rw [registerPost_snd, if_neg hc]
          exact setAdd_length _ _
      have hrec := ih (registerPost st e.uid e.role e.token e.now).2
      omega

theorem applyRegs_allTokens_mem (evs : List RegEvent) :
    ∀ (st : Registry) (t : String),
      t ∈ (applyRegs st evs).allTokens ↔
        t ∈ st.allTokens ∨ ∃ e ∈ evs, e.accepted ∧ e.token = t := by
  induction evs with
  | nil => intro st t; simp [applyRegs]
  | cons e rest ih =>
      intro st t
      simp only [applyRegs]
      rw [ih]
      rw [registerPost_snd]
      by_cases hc : e.token = "" ∨ e.uid = ""
      · have hna : ¬ e.accepted := by
          unfold RegEvent.accepted
          tauto
        rw [if_pos hc]
        constructor
        · rintro (hmem | ⟨x, hx, hacc, htok⟩)
          · exact Or.inl hmem
          · exact Or.inr ⟨x, List.mem_cons_of_mem _ hx, hacc, htok⟩
        · rintro (hmem | ⟨x, hx, hacc, htok⟩)
          · exact Or.inl hmem
          · rcases List.mem_cons.mp hx with rfl | hx2
            · exact absurd hacc hna
            · exact Or.inr ⟨x, hx2, hacc, htok⟩
      · have ha : e.accepted := by
          unfold RegEvent.accepted
          tauto
        rw [if_neg hc]
        simp only [Registry.allTokens]
        rw [mem_setAdd]
        constructor
        · rintro ((hmem | rfl) | ⟨x, hx, hacc, htok⟩)
          · exact Or.inl hmem
          · exact Or.inr ⟨e, List.mem_cons_self _ _, ha, rfl⟩
          · exact Or.inr ⟨x, List.mem_cons_of_mem _ hx, hacc, htok⟩
        · rintro (hmem | ⟨x, hx, hacc, htok⟩)
          · exact Or.inl (Or.inl hmem)
          · rcases List.mem_cons.mp hx with rfl | hx2
            · exact Or.inl (Or.inr htok.symm)
            · exact Or.inr ⟨x, hx2, hacc, htok⟩

/-! Claim theorems. -/

/-- Claim C1: for every dispatch intent whose `doctorUid` names an identity
with a registered destination, the chosen strategy is `single` and the
destination is that record's token, regardless of the `targetRole` and
`useTopic` hints (which are left unconstrained here). -/
theorem sendCall_direct_target_single
    (tp : Transport) (st : Registry) (i : Intent) (r : Rec)
    (hwf : wfTokens st) (hv : i.invalid = false) (hd : i.doctorUid ≠ "")
    (hget : mapGet st.userTokens i.doctorUid = some r) :
    route st i = Route.single i.doctorUid r.token ∧
    sendCall tp st i =
      (Response.okSingle i.doctorUid (tp.send r.token), [TCall.send r.token], st) := by
  have hmem : (i.doctorUid, r) ∈ st.userTokens := mapGet_mem _ _ _ hget
  have hne : r.token ≠ "" := hwf _ hmem
  have hs : singleDoctorToken st i = some r.token := by
    simp [singleDoctorToken, hd, hget]
  have hr : route st i = Route.single i.doctorUid r.token := by
    simp [route, hv, hs, hne]
  exact ⟨hr, by simp [sendCall, hr]⟩

/-- Instantiation of the C1 theorem: one registered doctor, an intent that
also carries `targetRole` and `useTopic` hints. -/
theorem sendCall_direct_target_single_witness :
    wfTokens exReg ∧ Intent.invalid iDirect = false ∧ iDirect.doctorUid ≠ "" ∧
    mapGet exReg.userTokens "d1" = some ⟨"tok-A", "doctor", 0⟩ ∧
    route exReg iDirect = Route.single "d1" "tok-A" :=
  ⟨by decide, by decide, by decide, by decide,
    (sendCall_direct_target_single exTransport exReg iDirect ⟨"tok-A", "doctor", 0⟩
      (by decide) (by decide) (by decide) (by decide)).1⟩

/-- Claim C2: when routing reaches the `tokens` strategy (no truthy direct
target, no topic request) and the resolved destination set is empty, the
call answers 404 with the role-parameterized message and issues no
transport call; the registry is unchanged. -/
theorem sendCall_tokens_empty_noRecipients
    (tp : Transport) (st : Registry) (i : Intent)
    (hv : i.invalid = false) (hs : (singleDoctorToken st i).getD "" = "")
    (ht : i.useTopic = false) (he : resolvedTokens st i = []) :
    sendCall tp st i =
      (Response.notFound (if i.targetRole = "" then "No tokens registered"
        else "No " ++ i.targetRole ++ " tokens registered"), [], st) := by
  have hr : route st i = routeFallback st i := route_eq_fallback hv hs
  simp [sendCall, hr, routeFallback, ht, he]

/-- Instantiation of the C2 theorem: role filter `doctor` on an empty
registry. -/
theorem sendCall_tokens_empty_noRecipients_witness :
    Intent.invalid iRole = false ∧ (singleDoctorToken Registry.empty iRole).getD "" = "" ∧
    iRole.useTopic = false ∧ resolvedTokens Registry.empty iRole = [] ∧
    sendCall exTransport Registry.empty iRole =
      (Response.notFound "No doctor tokens registered", [], Registry.empty) :=
  ⟨by decide, by decide, by decide, by decide,
    sendCall_tokens_empty_noRecipients exTransport Registry.empty iRole
      (by decide) (by decide) (by decide) (by decide)⟩

/-- Claim C3: an intent with empty `patientName`, or with none of
`channelId`/`channel`/`roomId` non-empty, is rejected with the 400
validation error before any transport call; the registry is unchanged and
the response does not depend on the registry at all (no registry read can
influence it). -/
theorem sendCall_validation_rejects_first
    (tp : Transport) (st st2 : Registry) (i : Intent)
    (h : i.patientName = "" ∨ (i.channelId = "" ∧ i.channel = "" ∧ i.roomId = "")) :
    sendCall tp st i =
      (Response.badRequest "Missing patientName or channel/channelId/roomId", [], st) ∧
    (sendCall tp st i).1 = (sendCall tp st2 i).1 := by
  have hv : i.invalid = true := (invalid_iff i).mpr h
  constructor
  · simp [sendCall, route, hv]
  · simp [sendCall, route, hv]

/-- Instantiation of the C3 theorem: a missing patient name. -/
theorem sendCall_validation_rejects_first_witness :
    (iInvalid.patientName = "" ∨
      (iInvalid.channelId = "" ∧ iInvalid.channel = "" ∧ iInvalid.roomId = "")) ∧
    sendCall exTransport exReg iInvalid =
      (Response.badRequest "Missing patientName or channel/channelId/roomId", [], exReg) :=
  ⟨by decide,
    (sendCall_validation_rejects_first exTransport exReg Registry.empty iInvalid (by decide)).1⟩

/-- Claim C4: a dispatch that resolves to strategy `tokens` answers with a
non-error response carrying `successCount`/`failureCount` tallied from the
transport's per-destination outcome vector, whatever that vector is — in
particular also when `failureCount > 0`. -/
theorem sendCall_partial_failures_ok
    (tp : Transport) (st : Registry) (i : Intent) (lst : List String)
    (hroute : route st i = Route.tokens lst) :
    sendCall tp st i =
      (Response.okTokens ((tp.multicast lst).count true) ((tp.multicast lst).count false)
        lst.length, [TCall.multicast lst], st) ∧
    Response.isError (sendCall tp st i).1 = false := by
  constructor
  · simp [sendCall, hroute]
  · simp [sendCall, hroute, Response.isError]

/-- Instantiation of the C4 theorem: a broadcast over one destination whose
delivery fails; the response is still `ok` with `failureCount = 1`. -/
theorem sendCall_partial_failures_ok_witness :
    route exReg iBroadcast = Route.tokens ["tok-A"] ∧
    sendCall exFailTransport exReg iBroadcast =
      (Response.okTokens 0 1 1, [TCall.multicast ["tok-A"]], exReg) ∧
    Response.isError (sendCall exFailTransport exReg iBroadcast).1 = false :=
  ⟨by decide,
    (sendCall_partial_failures_ok exFailTransport exReg iBroadcast ["tok-A"] (by decide)).1,
    (sendCall_partial_failures_ok exFailTransport exReg iBroadcast ["tok-A"] (by decide)).2⟩

/-- Claim C5: registering the same identity twice (non-empty uid and tokens)
leaves exactly one record for it, carrying the second registration's token,
role and timestamp; and the at-most-one-record-per-identity invariant is
preserved. -/
theorem register_upsert_latest_wins
    (st : Registry) (uid role1 tok1 role2 tok2 : String) (t1 t2 : Nat)
    (hk : ∀ k, countKey st.userTokens k ≤ 1)
    (hu : uid ≠ "") (h1 : tok1 ≠ "") (h2 : tok2 ≠ "") :
    mapGet ((registerPost (registerPost st uid role1 tok1 t1).2 uid role2 tok2 t2).2).userTokens
        uid = some ⟨tok2, if role2 = "" then "user" else role2, t2⟩ ∧
    countKey ((registerPost (registerPost st uid role1 tok1 t1).2 uid role2 tok2 t2).2).userTokens
        uid = 1 ∧
    ∀ k, countKey
        ((registerPost (registerPost st uid role1 tok1 t1).2 uid role2 tok2 t2).2).userTokens
        k ≤ 1 := by
  have e1 : ((registerPost st uid role1 tok1 t1).2).userTokens
      = mapSet st.userTokens uid ⟨tok1, if role1 = "" then "user" else role1, t1⟩ := by
    rw [registerPost_snd, if_neg (by tauto)]
  have e2 : ((registerPost (registerPost st uid role1 tok1 t1).2 uid role2 tok2 t2).2).userTokens
      = mapSet ((registerPost st uid role1 tok1 t1).2).userTokens uid
          ⟨tok2, if role2 = "" then "user" else role2, t2⟩ := by
    rw [registerPost_snd, if_neg (by tauto)]
  rw [e2, e1]
  refine ⟨mapGet_mapSet_self _ _ _, ?_, ?_⟩
  · exact countKey_mapSet_self _ _ _ (le_of_eq (countKey_mapSet_self _ _ _ (hk uid)))
  · intro k
    exact countKey_mapSet_le _ _ _ _
      (countKey_mapSet_le _ _ _ _ (hk k) (hk uid))
      (le_of_eq (countKey_mapSet_self _ _ _ (hk uid)))

/-- Instantiation of the C5 theorem: double registration of `u`, the second
with an empty role (stored as the default `user`). -/
theorem register_upsert_latest_wins_witness :
    ("u" : String) ≠ "" ∧
    mapGet ((registerPost (registerPost Registry.empty "u" "a" "t1" 0).2
      "u" "" "t2" 1).2).userTokens "u" = some ⟨"t2", "user", 1⟩ :=
  ⟨by decide,
    (register_upsert_latest_wins Registry.empty "u" "a" "t1" "" "t2" 0 1
      (fun _ => Nat.zero_le 1) (by decide) (by decide) (by decide)).1⟩

/-- Claim C6, counterexample: after re-registering `u1` with a new token,
`allTokens` still contains the stale `tokA`, which is no current record's
destination — so `allTokens` is not the set of destinations currently
present in the records. -/
theorem allTokens_stale_after_rereg_cex :
    "tokA" ∈ staleReg.allTokens ∧
    (∀ p ∈ staleReg.userTokens, p.2.token ≠ "tokA") ∧
    staleReg.allTokens = ["tokA", "tokB"] ∧
    staleReg.userTokens.map (fun p => p.2.token) = ["tokB"] := by
  decide

/-- Claim C6, amended: after any sequence of registration requests from the
empty registry, `allTokens` is the set of every destination that was ever
successfully registered (duplicates collapsed): it is duplicate-free, its
size never exceeds the number of registration calls, and a token is a
member exactly when some accepted registration carried it. -/
theorem allTokens_ever_registered_spec (evs : List RegEvent) :
    (applyRegs Registry.empty evs).allTokens.Nodup ∧
    (applyRegs Registry.empty evs).allTokens.length ≤ evs.length ∧
    ∀ t, t ∈ (applyRegs Registry.empty evs).allTokens ↔
      ∃ e ∈ evs, e.accepted ∧ e.token = t := by
  refine ⟨applyRegs_allTokens_nodup evs Registry.empty (by simp [Registry.empty]), ?_, ?_⟩
  · have h := applyRegs_allTokens_length evs Registry.empty
    simpa [Registry.empty] using h
  · intro t
    have h := applyRegs_allTokens_mem evs Registry.empty t
    simpa [Registry.empty] using h

/-- Claim C7: a record is selected by the role filter exactly when its role
equals the filter up to lower-casing, and a role-filtered dispatch resolves
precisely the destinations of the matching records. -/
theorem listByRole_case_insensitive (st : Registry) (role : String) :
    (∀ u : Rec, u ∈ listByRole st role ↔
      u ∈ st.userTokens.map Prod.snd ∧ lowerStr u.role = lowerStr role) ∧
    ∀ i : Intent, i.targetRole ≠ "" →
      resolvedTokens st i = (listByRole st i.targetRole).map Rec.token := by
  constructor
  · intro u
    simp [listByRole, List.mem_filter]
  · intro i h
    simp [resolvedTokens, h]

/-- Instantiation of the C7 theorem: the dispatch part at a role-filtered
intent, plus the filter contract evaluated on a differently-cased filter. -/
theorem listByRole_case_insensitive_witness :
    iRole.targetRole ≠ "" ∧
    resolvedTokens exReg iRole = (listByRole exReg "doctor").map Rec.token ∧
    (⟨"tok-A", "doctor", 0⟩ : Rec) ∈ listByRole exReg "DocTor" :=
  ⟨by decide,
    (listByRole_case_insensitive exReg "doctor").2 iRole (by decide),
    ((listByRole_case_insensitive exReg "DocTor").1 ⟨"tok-A", "doctor", 0⟩).mpr
      ⟨by decide, by decide⟩⟩

/-- Claim C9: `verifyPassword` defers to the bcrypt comparison exactly when
the stored secret is a string with prefix `$2`; otherwise it answers true
exactly for strict equality, and a non-string stored value never compares
equal to a string candidate. -/
theorem verifyPassword_spec (bc : String → String → Bool) (cand s : String) :
    (isBcryptHash s = true → verifyPassword bc cand (.str s) = bc cand s) ∧
    (isBcryptHash s = false → (verifyPassword bc cand (.str s) = true ↔ cand = s)) ∧
    verifyPassword bc cand .nonString = false := by
  refine ⟨fun h => ?_, fun h => ?_, rfl⟩
  · simp [verifyPassword, h]
  · simp [verifyPassword, h]

/-- Instantiation of the C9 theorem: a bcrypt-format stored hash routes to
the (stubbed) bcrypt comparison; a plaintext stored secret compares by
equality. -/
theorem verifyPassword_spec_witness :
    (isBcryptHash "$2b$x" = true ∧
      verifyPassword bcW "pw" (.str "$2b$x") = bcW "pw" "$2b$x") ∧
    (isBcryptHash "pw" = false ∧
      (verifyPassword bcW "pw" (.str "pw") = true ↔ ("pw" : String) = "pw")) :=
  ⟨⟨by decide, (verifyPassword_spec bcW "pw" "$2b$x").1 (by decide)⟩,
    ⟨by decide, (verifyPassword_spec bcW "pw" "pw").2.1 (by decide)⟩⟩

/-- Claim C10: when topic delivery is requested and no truthy direct target
resolves, the empty-destination check is skipped: the topic send is
attempted for any registry (including an empty one) and the 404
`NoRecipients` response cannot arise on this path. -/
theorem sendCall_topic_skips_empty_check
    (tp : Transport) (st : Registry) (i : Intent)
    (hv : i.invalid = false) (hs : (singleDoctorToken st i).getD "" = "")
    (ht : i.useTopic = true) :
    sendCall tp st i =
      (Response.okTopic (tp.sendTopic "doctors") "doctors", [TCall.sendTopic "doctors"], st) ∧
    ∀ e, (sendCall tp st i).1 ≠ Response.notFound e := by
  have hr : route st i = routeFallback st i := route_eq_fallback hv hs
  have hf : routeFallback st i = Route.topic "doctors" := by
    simp [routeFallback, ht]
  constructor
  · simp [sendCall, hr, hf]
  · intro e
    simp [sendCall, hr, hf]

/-- Instantiation of the C10 theorem: topic dispatch against the empty
registry still sends. -/
theorem sendCall_topic_skips_empty_check_witness :
    Intent.invalid iTopic = false ∧
    (singleDoctorToken Registry.empty iTopic).getD "" = "" ∧
    iTopic.useTopic = true ∧
    sendCall exTransport Registry.empty iTopic =
      (Response.okTopic "mid-2" "doctors", [TCall.sendTopic "doctors"], Registry.empty) :=
  ⟨by decide, by decide, by decide,
    (sendCall_topic_skips_empty_check exTransport Registry.empty iTopic
      (by decide) (by decide) (by decide)).1⟩

/-- Claim C8: with the limiter fresh for a client address, five attempts
inside the first attempt's 5-minute window exhaust the quota, the sixth
attempt in the window answers `rateLimited` with no credential lookup, and
any attempt made once every window for that address has expired is decided
purely by the credential check (`credOutcome`), independent of the limiter
history. -/
theorem login_rate_limit_spec
    (bc : String → String → Bool) (db : String → Option UserRecord)
    (ip : String) (rl0 : RLState) (s : Nat) (u1 p1 : String)
    (rest : List (Nat × String × String)) (t6 : Nat) (u6 p6 : String)
    (hfresh : rlLookup rl0.entries ip = none)
    (hlen : rest.length = 4)
    (hrest : ∀ a ∈ rest, a.1 < s + rlDurationMs)
    (ht6 : t6 < s + rlDurationMs) :
    login bc db (loginFold bc db ip (login bc db rl0 ip s u1 p1).2.1 rest) ip t6 u6 p6
      = (.rateLimited, loginFold bc db ip (login bc db rl0 ip s u1 p1).2.1 rest, []) ∧
    ∀ (rla : RLState) (t7 : Nat) (u7 p7 : String),
      (∀ ce, rlLookup rla.entries ip = some ce → ce.2 ≤ t7) →
      (login bc db rla ip t7 u7 p7).1 = credOutcome bc db u7 p7 := by
  constructor
  · have hc1 : rlConsume rl0 ip s = (true, ⟨rlSet rl0.entries ip (1, s + rlDurationMs)⟩) := by
      simp [rlConsume, hfresh]
    have h1 : (login bc db rl0 ip s u1 p1).2.1
        = ⟨rlSet rl0.entries ip (1, s + rlDurationMs)⟩ := by
      rw [login_rlState, hc1]
    have h5 := loginFold_lookup bc db ip rest ⟨rlSet rl0.entries ip (1, s + rlDurationMs)⟩ 1
      (s + rlDurationMs) (rlLookup_rlSet_self _ _ _) (by rw [hlen]; decide) hrest
    rw [h1]
    rw [hlen] at h5
    have hc6 : rlConsume
        (loginFold bc db ip ⟨rlSet rl0.entries ip (1, s + rlDurationMs)⟩ rest) ip t6
        = (false, loginFold bc db ip ⟨rlSet rl0.entries ip (1, s + rlDurationMs)⟩ rest) := by
      simp [rlConsume, h5, Nat.not_le.mpr ht6, rlPoints]
    exact login_denied bc db _ ip t6 u6 p6 hc6
  · intro rla t7 u7 p7 hexp
    apply login_admitted
    cases hl : rlLookup rla.entries ip with
    | none => simp [rlConsume, hl]
    | some ce =>
        obtain ⟨c, e⟩ := ce
        have hle : e ≤ t7 := hexp (c, e) hl
        simp [rlConsume, hl, hle]

/-- Instantiation of the C8 theorem: six attempts at times 0..5 from one
address; the sixth is rate-limited with no lookup. -/
theorem login_rate_limit_spec_witness :
    rlLookup (RLState.mk []).entries "ip" = none ∧
    login bcW dbW (loginFold bcW dbW "ip" (login bcW dbW ⟨[]⟩ "ip" 0 "a" "b").2.1 restW)
        "ip" 5 "a" "b"
      = (.rateLimited,
          loginFold bcW dbW "ip" (login bcW dbW ⟨[]⟩ "ip" 0 "a" "b").2.1 restW, []) :=
  ⟨rfl,
    (login_rate_limit_spec bcW dbW "ip" ⟨[]⟩ 0 "a" "b" restW 5 "a" "b"
      rfl rfl (by decide) (by decide)).1⟩

end FcmServer
